import Mathlib

/-!
# Verification of the parameter-sweep evaluation engine (`scqubits/core/sweeps.py`)

This file gives a shallow embedding of the sweep executor `generator`
(src/scqubits/core/sweeps.py, lines 42-97) together with a model of its
collaborator, the grid reducer (`Parameters.create_sliced`, `counts`,
`ranges`, and multi-index value lookup), which is part of this repository
but not contained in the provided sources; the reducer is therefore
modelled from the specification's words (section 4.1).

Modelling choices:
* physical parameter values are `Int` (the spec only needs them to be
  enumerable and comparable for the claims at hand);
* a numpy ndarray is a flat row-major data list together with a shape;
* Python exceptions are `Except`: `list(map(f, it))` evaluates `f`
  left-to-right and aborts at the first raised exception, which is the
  `mapExcept` function below;
* `tqdm` yields the elements of the wrapped iterator unchanged; its
  arguments (`total`, `desc`, `leave`, `disable`) only affect terminal
  output, which has no counterpart in the embedding;
* the global flag `settings.PROGRESSBAR_DISABLED` and the
  `hasattr(func, "__name__")` introspection are passed to `generator`
  as explicit arguments (`progressbar_disabled`, `func_name`).
-/

/-- Modelled from the spec: the error raised by the grid reducer when a
fixed index lies outside an axis's valid range (spec section 4.1 / 7);
the reducer itself is not among the provided sources. -/
inductive OutOfRangeError : Type where
  | mk : OutOfRangeError
deriving DecidableEq, Repr

/-- Modelled from the spec: the parameter-space / reduced-parameter-space
data model (spec section 3).  Each axis is an ordered list of physical
values; axis order is the order of the output array's dimensions. -/
structure Parameters : Type where
  paramvals_list : List (List Int)
deriving DecidableEq, Repr

/-- Modelled from the spec: ordered list of per-axis sizes; determines the
exact shape of the output array (spec section 3). -/
def Parameters.counts (p : Parameters) : List Nat :=
  p.paramvals_list.map List.length

/-- Modelled from the spec: "`ranges` = ordered list of each axis's
enumerable index range (0..count-1) used to drive Cartesian iteration"
(spec section 4.1). -/
def Parameters.ranges (p : Parameters) : List (List Nat) :=
  p.counts.map List.range

/-- Modelled from the spec: "`values(index_tuple)` maps a MultiIndex back to
the tuple of physical values at that point" (spec section 4.1); this is the
`params[paramindex_tuple]` lookup of the source.  Out-of-range components
(never produced by the executor) default to 0. -/
def Parameters.values (p : Parameters) (m : List Nat) : List Int :=
  (p.paramvals_list.zip m).map fun pr => pr.1.getD pr.2 0

/-- Number of axes of the space. -/
def Parameters.numAxes (p : Parameters) : Nat :=
  p.paramvals_list.length

/-- Modelled from the spec: "every key in `fixed_indices` must name a valid
axis in `space`; each fixed value must lie within that axis's valid index
range" (spec section 4.1). -/
def validSlice (p : Parameters) (fixed : List (Nat × Int)) : Bool :=
  fixed.all fun pr =>
    decide (pr.1 < p.numAxes) && decide (0 ≤ pr.2) &&
      decide (pr.2 < (p.counts.getD pr.1 0 : Int))

/-- Body of the reducer for `remove_fixed = False`: every axis is kept; an
axis pinned at index `j` is collapsed to the single physical value at `j`
(a length-1 axis at its original position), all other axes pass through
unchanged (spec section 4.1). -/
def slicedParams (p : Parameters) (fixed : List (Nat × Int)) : Parameters :=
  ⟨p.paramvals_list.enum.map fun pr =>
    match fixed.lookup pr.1 with
    | none => pr.2
    | some j => [pr.2.getD j.toNat 0]⟩

/-- Body of the reducer for `remove_fixed = True`: pinned axes are dropped
entirely, the remaining axes pass through in original relative order
(spec section 4.1). -/
def droppedParams (p : Parameters) (fixed : List (Nat × Int)) : Parameters :=
  ⟨p.paramvals_list.enum.filterMap fun pr =>
    if (fixed.lookup pr.1).isSome then none else some pr.2⟩

/-- Modelled from the spec: the grid reducer
`reduce(space, fixed_indices, remove_fixed) -> ReducedParameterSpace`
(spec section 4.1); this is the `Parameters.create_sliced` method invoked
by the executor at src/scqubits/core/sweeps.py:61-63 but not itself among
the provided sources.  Invalid fixed indices fail with `OutOfRangeError`,
detected eagerly before any iteration. -/
def Parameters.create_sliced (p : Parameters) (fixed : List (Nat × Int))
    (remove_fixed : Bool) : Except OutOfRangeError Parameters :=
  if validSlice p fixed then
    if remove_fixed then Except.ok (droppedParams p fixed)
    else Except.ok (slicedParams p fixed)
  else Except.error OutOfRangeError.mk

/-- The sweep object handed to `generator`: it carries the full parameter
space (`sweep.parameters`) and the currently fixed axis indices
(`sweep._current_param_indices`, an association of axis position to pinned
index), read at src/scqubits/core/sweeps.py:61-62. -/
structure ParameterSweep : Type where
  parameters : Parameters
  current_param_indices : List (Nat × Int)
deriving DecidableEq, Repr

namespace itertools

/-- `itertools.product(*ranges)`: Cartesian product in row-major order, the
first factor outermost, the last factor varying fastest. -/
def product {α : Type u} : List (List α) → List (List α)
  | [] => [[]]
  | r :: rs => r.flatMap fun x => (product rs).map fun t => x :: t

end itertools

/-- `tqdm(iterable, total=..., desc=..., leave=..., disable=...)`: yields the
elements of the wrapped iterable unchanged; all remaining arguments drive
terminal output only. -/
def tqdm {α : Type u} (iterable : List α) (total : Nat) (desc : String)
    (leave : Bool) (disable : Bool) : List α :=
  iterable

/-- Errors that can escape the executor: the reducer's `OutOfRangeError`,
an exception raised by the user callback (propagated verbatim), or numpy's
reshape failure (the spec's `ShapeMismatchError`, section 7). -/
inductive SweepError (E : Type u) : Type u where
  | outOfRange (err : OutOfRangeError) : SweepError E
  | callback (err : E) : SweepError E
  | shapeMismatch : SweepError E
deriving DecidableEq, Repr

/-- A numpy ndarray: a shape together with the flat row-major data. -/
structure NdArray (R : Type u) : Type u where
  shape : List Nat
  data : List R
deriving DecidableEq, Repr

/-- `np.asarray` applied to a flat Python list whose elements are opaque
array cells: a 1-dimensional array of those cells.  This is numpy's
behavior whenever the elements are non-sequence objects; `np_asarray`
below refines it with the stacking semantics that sequence-valued
elements trigger, which matters where a claim depends on the element
structure. -/
def asarray {R : Type u} (xs : List R) : NdArray R :=
  ⟨[xs.length], xs⟩

/-- `ndarray.reshape(newshape)`: succeeds exactly when the element count
matches the product of the new shape; a strict structural transform, the
flat data is not reordered. -/
def NdArray.reshape {R : Type u} (a : NdArray R) (newshape : List Nat) :
    Option (NdArray R) :=
  if a.data.length = newshape.prod then some ⟨newshape, a.data⟩ else none

/-- Python's `list(map(f, xs))` for a fallible `f`: evaluates left-to-right
and aborts at the first raised exception, which propagates uncaught. -/
def mapExcept {α : Type u} {ε : Type v} {β : Type w} (f : α → Except ε β) :
    List α → Except ε (List β)
  | [] => Except.ok []
  | x :: xs => do
    let y ← f x
    let ys ← mapExcept f xs
    pure (y :: ys)

/-- Shallow embedding of `generator` (src/scqubits/core/sweeps.py:42-97).
The callback may raise (`Except E`); `kwargs` is the opaque bundle of
forwarded keyword arguments; `func_name` models the
`hasattr(func, "__name__")` introspection and `progressbar_disabled` the
global `settings.PROGRESSBAR_DISABLED` flag. -/
def generator {K : Type} {E : Type} {R : Type} (sweep : ParameterSweep)
    (func : ParameterSweep → List Nat → List Int → K → Except E R)
    (func_name : Option String) (progressbar_disabled : Bool) (kwargs : K) :
    Except (SweepError E) (NdArray R) := do
  let reduced_parameters ←
    (sweep.parameters.create_sliced sweep.current_param_indices false).mapError
      SweepError.outOfRange
  let total_count := reduced_parameters.counts.prod
  let func_effective := fun (paramindex_tuple : List Nat) (params : Parameters)
      (kw : K) =>
    func sweep paramindex_tuple (params.values paramindex_tuple) kw
  let fname := func_name.getD ""
  let mapped ←
    mapExcept
      (fun m => (func_effective m reduced_parameters kwargs).mapError
        SweepError.callback)
      (itertools.product reduced_parameters.ranges)
  let data_array :=
    tqdm mapped total_count ("sweeping " ++ fname) false progressbar_disabled
  match (asarray data_array).reshape reduced_parameters.counts with
  | some arr => Except.ok arr
  | none => Except.error SweepError.shapeMismatch

/-- State-threaded embedding of `generator` for callbacks that mutate the
sweep object (in particular `sweep._current_param_indices`): each call
receives the sweep state left by the previous call and returns an updated
state.  As in the source, the reduced space is computed once from the
initial state (src/scqubits/core/sweeps.py:61-63) before any invocation.
The third result component records every `paramindex_tuple` passed to the
callback, in invocation order (instrumentation). -/
def generatorMut {K : Type} {R : Type} (sweep : ParameterSweep)
    (func : ParameterSweep → List Nat → List Int → K → R × ParameterSweep)
    (kwargs : K) :
    Except (SweepError Empty) (NdArray R × ParameterSweep × List (List Nat)) := do
  let reduced_parameters ←
    (sweep.parameters.create_sliced sweep.current_param_indices false).mapError
      SweepError.outOfRange
  let step := fun (acc : List R × ParameterSweep × List (List Nat))
      (m : List Nat) =>
    let out := func acc.2.1 m (reduced_parameters.values m) kwargs
    (acc.1 ++ [out.1], out.2, acc.2.2 ++ [m])
  let final :=
    (itertools.product reduced_parameters.ranges).foldl step ([], sweep, [])
  match (asarray final.1).reshape reduced_parameters.counts with
  | some arr => Except.ok (arr, final.2.1, final.2.2)
  | none => Except.error SweepError.shapeMismatch

/-- The shape stated by the claim C1, written from the spec's words: the
full space's axis counts with each pinned axis collapsed to size 1 at its
original position (spec section 8, shape invariant). -/
def collapsedShape (p : Parameters) (fixed : List (Nat × Int)) : List Nat :=
  p.counts.enum.map fun pr => if (fixed.lookup pr.1).isSome then 1 else pr.2

/-- Row-major flat index of a multi-index in an array of the given shape:
the last axis varies fastest. -/
def flatIndex : List Nat → List Nat → Nat
  | c :: cs, i :: is => i * cs.prod + flatIndex cs is
  | _, _ => 0

/-- The fold performed by `generatorMut` over the reduced space `q`:
accumulates the returned data, the threaded sweep state, and the recorded
`paramindex_tuple` log. -/
def mutFold {K R : Type} (sweep : ParameterSweep)
    (func : ParameterSweep → List Nat → List Int → K → R × ParameterSweep)
    (kwargs : K) (q : Parameters) :
    List R × ParameterSweep × List (List Nat) :=
  (itertools.product q.ranges).foldl
    (fun acc m =>
      let out := func acc.2.1 m (q.values m) kwargs
      (acc.1 ++ [out.1], out.2, acc.2.2 ++ [m]))
    ([], sweep, [])

/-! ## Concrete example spaces (spec section 8 scenarios) -/

/-- The spec's example space: axis 0 with 3 physical values, axis 1 with 4. -/
def exampleSpace : Parameters :=
  ⟨[[10, 20, 30], [1, 2, 3, 4]]⟩

/-- The example space with no axis fixed. -/
def exampleSweepFree : ParameterSweep :=
  ⟨exampleSpace, []⟩

/-- The example space with axis 0 pinned at index 1. -/
def exampleSweepFixed : ParameterSweep :=
  ⟨exampleSpace, [(0, 1)]⟩

/-- An axis with zero physical values, for the zero-size scenario. -/
def zeroAxisSweep : ParameterSweep :=
  ⟨⟨[[10, 20], []]⟩, []⟩

/-- A callback result as numpy's `asarray` inspects it: a number, a
non-sequence domain object, or a sequence (an array-valued result; one
nesting level, which is all the executor's storage step distinguishes
for the claims at hand). -/
inductive PyObj : Type where
  | scalar (z : Int) : PyObj
  | obj (tag : String) : PyObj
  | seq (xs : List Int) : PyObj
deriving DecidableEq, Repr

/-- Whether numpy treats the object as a non-sequence, i.e. as an atomic
array cell. -/
def PyObj.isAtom : PyObj → Bool
  | .seq _ => false
  | _ => true

/-- The length of a sequence object, `none` for non-sequences. -/
def PyObj.seqLen : PyObj → Option Nat
  | .seq xs => some xs.length
  | _ => none

/-- The elements of a sequence object. -/
def PyObj.elems : PyObj → List Int
  | .seq xs => xs
  | _ => []

/-- numpy's `ValueError`. -/
inductive ValueError : Type where
  | mk : ValueError
deriving DecidableEq, Repr

/-- `np.asarray` on a flat Python list with the element structure observed
(the storage step at src/scqubits/core/sweeps.py:96): a list of
non-sequence objects becomes a 1-dimensional array of those objects (a
generic object array when their types are mixed); a list of equal-length
sequences is stacked into a 2-dimensional `(n, L)` array of their
elements; ragged sequences, or a mixture of sequences and non-sequences,
raise `ValueError` (numpy 1.24 and later). -/
def np_asarray (xs : List PyObj) : Except ValueError (NdArray PyObj) :=
  if xs.all PyObj.isAtom then Except.ok ⟨[xs.length], xs⟩
  else
    match xs.head? with
    | none => Except.ok ⟨[0], []⟩
    | some x0 =>
      match x0.seqLen with
      | none => Except.error ValueError.mk
      | some L =>
        if xs.all fun x => x.seqLen == some L then
          Except.ok ⟨[xs.length, L],
            xs.flatMap fun x => x.elems.map PyObj.scalar⟩
        else Except.error ValueError.mk

/-- Errors escaping the structure-aware executor: the reducer's
`OutOfRangeError`, or numpy's `ValueError` (raised by `np.asarray` on
ragged input, or by `reshape` when the array's size differs from the
product of the target shape). -/
inductive PySweepError : Type where
  | outOfRange (err : OutOfRangeError) : PySweepError
  | valueError : PySweepError
deriving DecidableEq, Repr

/-- The executor of src/scqubits/core/sweeps.py:42-97 for callbacks whose
return values are modelled with their element structure observable, so
that the storage step `np.asarray(data_array).reshape(counts)` (lines
96-97) follows numpy's stacking semantics; otherwise identical to
`generator`.  The callback here is infallible, since this embedding
serves a claim about return types, not about exceptions. -/
def generatorPy {K : Type} (sweep : ParameterSweep)
    (func : ParameterSweep → List Nat → List Int → K → PyObj)
    (func_name : Option String) (progressbar_disabled : Bool) (kwargs : K) :
    Except PySweepError (NdArray PyObj) := do
  let reduced_parameters ←
    (sweep.parameters.create_sliced sweep.current_param_indices false).mapError
      PySweepError.outOfRange
  let total_count := reduced_parameters.counts.prod
  let func_effective := fun (paramindex_tuple : List Nat) (params : Parameters)
      (kw : K) =>
    func sweep paramindex_tuple (params.values paramindex_tuple) kw
  let fname := func_name.getD ""
  let mapped :=
    (itertools.product reduced_parameters.ranges).map
      fun m => func_effective m reduced_parameters kwargs
  let data_array :=
    tqdm mapped total_count ("sweeping " ++ fname) false progressbar_disabled
  let arr1 ←
    (np_asarray data_array).mapError fun _ => PySweepError.valueError
  match arr1.reshape reduced_parameters.counts with
  | some arr => Except.ok arr
  | none => Except.error PySweepError.valueError

/-! ## Structure of the Cartesian iteration -/

lemma length_flatMap_const {α : Type u} {β : Type v} (r : List α) (L : Nat)
    (g : α → List β) (h : ∀ x, (g x).length = L) :
    (r.flatMap g).length = r.length * L := by
  induction r with
  | nil => simp
  | cons x r ih =>
    simp only [List.flatMap_cons, List.length_append, ih, h, List.length_cons]
    ring

lemma map_length_map_range (cs : List Nat) :
    List.map List.length (List.map List.range cs) = cs := by
  induction cs with
  | nil => rfl
  | cons c cs ih => simp [ih]

lemma length_product {α : Type u} (rs : List (List α)) :
    (itertools.product rs).length = (rs.map List.length).prod := by
  induction rs with
  | nil => simp [itertools.product]
  | cons r rs ih =>
    simp only [itertools.product, List.map_cons, List.prod_cons]
    rw [length_flatMap_const r (itertools.product rs).length _ fun x => by simp]
    rw [ih]

lemma mem_product {α : Type u} {rs : List (List α)} {m : List α} :
    m ∈ itertools.product rs ↔ List.Forall₂ (fun x r => x ∈ r) m rs := by
  induction rs generalizing m with
  | nil =>
    simp only [itertools.product, List.mem_singleton]
    constructor
    · rintro rfl; exact List.Forall₂.nil
    · intro h; cases h; rfl
  | cons r rs ih =>
    simp only [itertools.product, List.mem_flatMap, List.mem_map]
    constructor
    · rintro ⟨x, hx, t, ht, rfl⟩
      exact List.Forall₂.cons hx (ih.mp ht)
    · intro h
      cases h with
      | cons hx ht => exact ⟨_, hx, _, ih.mpr ht, rfl⟩

lemma nodup_product {α : Type u} {rs : List (List α)}
    (h : ∀ r ∈ rs, r.Nodup) : (itertools.product rs).Nodup := by
  induction rs with
  | nil => simp [itertools.product]
  | cons r rs ih =>
    simp only [itertools.product]
    rw [List.nodup_flatMap]
    refine ⟨fun x _ => ?_, ?_⟩
    · exact (ih fun q hq => h q (List.mem_cons_of_mem _ hq)).map
        fun a b hab => by injection hab
    · have hr : r.Nodup := h r (List.mem_cons_self _ _)
      refine hr.imp ?_
      intro a b hab l hla hlb
      simp only [Function.onFun, List.mem_map] at hla hlb
      obtain ⟨t, _, rfl⟩ := hla
      obtain ⟨t', _, h'⟩ := hlb
      injection h' with h1 _
      exact hab h1.symm

lemma flatIndex_lt_prod {cs m : List Nat}
    (h : List.Forall₂ (fun i c => i < c) m cs) : flatIndex cs m < cs.prod := by
  induction h with
  | nil => simp [flatIndex]
  | cons hic hrest ih =>
    rename_i i c m' cs'
    simp only [flatIndex, List.prod_cons]
    calc i * cs'.prod + flatIndex cs' m' < i * cs'.prod + cs'.prod :=
          Nat.add_lt_add_left ih _
      _ = (i + 1) * cs'.prod := by ring
      _ ≤ c * cs'.prod := Nat.mul_le_mul_right _ hic

lemma getElem?_flatMap_block {α β : Type u} (xs : List α) (f : α → List β)
    (L : Nat) (hL : ∀ x ∈ xs, (f x).length = L) :
    ∀ (i r : Nat) (hi : i < xs.length), r < L →
      (xs.flatMap f)[i * L + r]? = (f (xs.get ⟨i, hi⟩))[r]? := by
  induction xs with
  | nil => intro i r hi _; exact absurd hi (Nat.not_lt_zero _)
  | cons x xs ih =>
    intro i r hi hr
    cases i with
    | zero =>
      simp only [List.flatMap_cons, Nat.zero_mul, Nat.zero_add, List.get]
      rw [List.getElem?_append]
      simp [hL x (List.mem_cons_self _ _), hr]
    | succ i' =>
      simp only [List.flatMap_cons, List.get]
      rw [List.getElem?_append_right]
      · have hlen : (f x).length = L := hL x (List.mem_cons_self _ _)
        have harith : (i' + 1) * L + r - (f x).length = i' * L + r := by
          rw [hlen]; rw [Nat.succ_mul]; omega
        rw [harith]
        exact ih (fun y hy => hL y (List.mem_cons_of_mem _ hy)) i' r
          (Nat.lt_of_succ_lt_succ hi) hr
      · have hlen : (f x).length = L := hL x (List.mem_cons_self _ _)
        rw [hlen, Nat.succ_mul]
        omega

lemma product_getElem? {cs m : List Nat}
    (h : List.Forall₂ (fun i c => i < c) m cs) :
    (itertools.product (cs.map List.range))[flatIndex cs m]? = some m := by
  induction h with
  | nil => simp [itertools.product, flatIndex]
  | cons hic hrest ih =>
    rename_i i c m' cs'
    simp only [List.map_cons, itertools.product, flatIndex]
    have hlen : ∀ x ∈ List.range c,
        ((itertools.product (cs'.map List.range)).map fun t => x :: t).length
          = cs'.prod := by
      intro x _
      rw [List.length_map, length_product, map_length_map_range]
    have hi : i < (List.range c).length := by simpa using hic
    have hr : flatIndex cs' m' < cs'.prod := flatIndex_lt_prod hrest
    rw [getElem?_flatMap_block _ _ cs'.prod hlen i (flatIndex cs' m') hi hr]
    have : (List.range c).get ⟨i, hi⟩ = i := List.getElem_range i hi
    rw [this, List.getElem?_map, ih]
    rfl

/-! ## Sequential fallible map -/

lemma mapExcept_congr_ok {α : Type u} {ε β : Type} {f : α → Except ε β}
    {g : α → β} {xs : List α} (h : ∀ x ∈ xs, f x = Except.ok (g x)) :
    mapExcept f xs = Except.ok (xs.map g) := by
  induction xs with
  | nil => rfl
  | cons x xs ih =>
    simp only [mapExcept, h x (List.mem_cons_self _ _), List.map_cons,
      ih fun y hy => h y (List.mem_cons_of_mem _ hy)]
    rfl

lemma mapExcept_error_of_mem {α : Type u} {ε β : Type} {f : α → Except ε β}
    {xs : List α} {x : α} {e : ε} (hx : x ∈ xs) (he : f x = Except.error e) :
    ∃ e', (∃ y ∈ xs, f y = Except.error e') ∧
      mapExcept f xs = Except.error e' := by
  induction xs with
  | nil => cases hx
  | cons y ys ih =>
    cases hfy : f y with
    | error e'' =>
      exact ⟨e'', ⟨y, List.mem_cons_self _ _, hfy⟩, by
        simp only [mapExcept, hfy]; rfl⟩
    | ok v =>
      rcases List.mem_cons.mp hx with rfl | hx'
      · rw [hfy] at he; cases he
      · obtain ⟨e', ⟨z, hz, hze⟩, hrun⟩ := ih hx'
        refine ⟨e', ⟨z, List.mem_cons_of_mem _ hz, hze⟩, ?_⟩
        simp only [mapExcept, hfy, hrun]
        rfl

/-! ## The reduced space -/

lemma counts_sliced_aux (fixed : List (Nat × Int)) (vals : List (List Int)) :
    ∀ n : Nat,
      List.map List.length
        ((List.enumFrom n vals).map fun pr =>
          match fixed.lookup pr.1 with
          | none => pr.2
          | some j => [pr.2.getD j.toNat 0])
      = (List.enumFrom n (vals.map List.length)).map
          fun pr => if (fixed.lookup pr.1).isSome then 1 else pr.2 := by
  induction vals with
  | nil => intro n; rfl
  | cons v vs ih =>
    intro n
    simp only [List.map_cons, List.enumFrom_cons]
    rw [ih (n + 1)]
    congr 1
    cases h : fixed.lookup n <;> simp [h]

lemma counts_slicedParams (p : Parameters) (fixed : List (Nat × Int)) :
    (slicedParams p fixed).counts = collapsedShape p fixed := by
  have := counts_sliced_aux fixed p.paramvals_list 0
  simpa [Parameters.counts, slicedParams, collapsedShape, List.enum] using this

lemma create_sliced_false_eq_ok {p : Parameters} {fixed : List (Nat × Int)}
    (h : validSlice p fixed = true) :
    p.create_sliced fixed false = Except.ok (slicedParams p fixed) := by
  simp [Parameters.create_sliced, h]

lemma create_sliced_ok_inv {p : Parameters} {fixed : List (Nat × Int)}
    {q : Parameters} (h : p.create_sliced fixed false = Except.ok q) :
    validSlice p fixed = true ∧ q = slicedParams p fixed := by
  by_cases hv : validSlice p fixed = true
  · refine ⟨hv, ?_⟩
    rw [create_sliced_false_eq_ok hv] at h
    cases h
    rfl
  · rw [Parameters.create_sliced, if_neg hv] at h
    cases h

/-! ## Unfolding the executor -/

lemma generator_eq_of_create_sliced_ok {K E R : Type} (sweep : ParameterSweep)
    (func : ParameterSweep → List Nat → List Int → K → Except E R)
    (fn : Option String) (pd : Bool) (kwargs : K) (q : Parameters)
    (h : sweep.parameters.create_sliced sweep.current_param_indices false
      = Except.ok q) :
    generator sweep func fn pd kwargs =
      (mapExcept
          (fun m => (func sweep m (q.values m) kwargs).mapError
            SweepError.callback)
          (itertools.product q.ranges)).bind
        fun mapped =>
          match (asarray mapped).reshape q.counts with
          | some arr => Except.ok arr
          | none => Except.error SweepError.shapeMismatch := by
  unfold generator
  rw [h]
  rfl

lemma generator_eq_error_of_create_sliced_error {K E R : Type}
    (sweep : ParameterSweep)
    (func : ParameterSweep → List Nat → List Int → K → Except E R)
    (fn : Option String) (pd : Bool) (kwargs : K) (e : OutOfRangeError)
    (h : sweep.parameters.create_sliced sweep.current_param_indices false
      = Except.error e) :
    generator sweep func fn pd kwargs
      = Except.error (SweepError.outOfRange e) := by
  unfold generator
  rw [h]
  rfl

lemma except_bind_ok {ε α β : Type} (a : α) (f : α → Except ε β) :
    (Except.ok a : Except ε α).bind f = f a := rfl

lemma reshape_product_map {R : Type} (q : Parameters) (g : List Nat → R) :
    (asarray ((itertools.product q.ranges).map g)).reshape q.counts
      = some ⟨q.counts, (itertools.product q.ranges).map g⟩ := by
  unfold asarray NdArray.reshape
  rw [if_pos]
  rw [List.length_map, length_product]
  unfold Parameters.ranges
  rw [map_length_map_range]

lemma generator_ok_of_valid {K E R : Type} (sweep : ParameterSweep)
    (f : ParameterSweep → List Nat → List Int → K → R) (fn : Option String)
    (pd : Bool) (kwargs : K)
    (h : validSlice sweep.parameters sweep.current_param_indices = true) :
    generator sweep (fun s m v k => (Except.ok (f s m v k) : Except E R))
        fn pd kwargs
      = Except.ok
          ⟨(slicedParams sweep.parameters sweep.current_param_indices).counts,
            (itertools.product
              (slicedParams sweep.parameters sweep.current_param_indices).ranges).map
              fun m =>
                f sweep m
                  ((slicedParams sweep.parameters
                    sweep.current_param_indices).values m) kwargs⟩ := by
  rw [generator_eq_of_create_sliced_ok sweep _ fn pd kwargs _
    (create_sliced_false_eq_ok h)]
  have hstep : mapExcept
      (fun m => Except.mapError SweepError.callback
        (Except.ok
          (f sweep m
            ((slicedParams sweep.parameters
              sweep.current_param_indices).values m) kwargs) : Except E R))
      (itertools.product
        (slicedParams sweep.parameters sweep.current_param_indices).ranges)
      = Except.ok
          ((itertools.product
            (slicedParams sweep.parameters
              sweep.current_param_indices).ranges).map
            fun m =>
              f sweep m
                ((slicedParams sweep.parameters
                  sweep.current_param_indices).values m) kwargs) :=
    mapExcept_congr_ok fun x _ => rfl
  rw [hstep, except_bind_ok]
  rw [reshape_product_map]

lemma generatorMut_eq_of_create_sliced_ok {K R : Type} (sweep : ParameterSweep)
    (func : ParameterSweep → List Nat → List Int → K → R × ParameterSweep)
    (kwargs : K) (q : Parameters)
    (h : sweep.parameters.create_sliced sweep.current_param_indices false
      = Except.ok q) :
    generatorMut sweep func kwargs =
      match (asarray (mutFold sweep func kwargs q).1).reshape q.counts with
      | some arr =>
          Except.ok (arr, (mutFold sweep func kwargs q).2.1,
            (mutFold sweep func kwargs q).2.2)
      | none => Except.error SweepError.shapeMismatch := by
  unfold generatorMut mutFold
  rw [h]
  rfl

lemma foldl_log_invariant {α β : Type u} (step : α → β → α) (g : α → List β)
    (hg : ∀ a b, g (step a b) = g a ++ [b]) :
    ∀ (ms : List β) (a : α), g (ms.foldl step a) = g a ++ ms := by
  intro ms
  induction ms with
  | nil => intro a; simp
  | cons m ms ih =>
    intro a
    rw [List.foldl_cons, ih, hg]
    simp

lemma foldl_count_invariant {α : Type u} {β : Type v} (step : α → β → α)
    (g : α → Nat) (hg : ∀ a b, g (step a b) = g a + 1) :
    ∀ (ms : List β) (a : α), g (ms.foldl step a) = g a + ms.length := by
  intro ms
  induction ms with
  | nil => intro a; simp
  | cons m ms ih =>
    intro a
    rw [List.foldl_cons, ih, hg, List.length_cons]
    omega

lemma forall₂_mem_range {m cs : List Nat}
    (h : List.Forall₂ (fun i c => i < c) m cs) :
    List.Forall₂ (fun x r => x ∈ r) m (cs.map List.range) := by
  induction h with
  | nil => exact List.Forall₂.nil
  | cons hic _ ih =>
    simp only [List.map_cons]
    exact List.Forall₂.cons (List.mem_range.mpr hic) ih

lemma count_eq_one_of_nodup_mem {α : Type u} [BEq α] [LawfulBEq α]
    {l : List α} {a : α} (hn : l.Nodup) (ha : a ∈ l) : l.count a = 1 := by
  induction l with
  | nil => cases ha
  | cons x xs ih =>
    rw [List.count_cons]
    rcases List.mem_cons.mp ha with rfl | hmem
    · have hx : xs.count a = 0 :=
        List.count_eq_zero.mpr (List.nodup_cons.mp hn).1
      simp [hx]
    · have hne : ¬(a == x) = true := by
        intro hbeq
        have hax : a = x := eq_of_beq hbeq
        subst hax
        exact (List.nodup_cons.mp hn).1 hmem
      have hxa : ¬x = a := by
        intro h
        subst h
        exact hne (by simp)
      rw [ih (List.nodup_cons.mp hn).2 hmem]
      simp [hne, hxa]

/-! ## Claims -/

/-- C1: for every ParameterSpace with axis counts `(c1,...,cn)` and every
valid FixedIndices pinning a subset of axes, the executor succeeds
(reduction is performed with `remove_fixed = False` and the flat results
are reshaped to the reduced counts) and the array's shape is exactly
`(c1,...,cn)` with each pinned axis collapsed to size 1 at its original
position. -/
theorem C1_shape_invariant {K E R : Type} (sweep : ParameterSweep)
    (f : ParameterSweep → List Nat → List Int → K → R) (fn : Option String)
    (pd : Bool) (kwargs : K)
    (h : validSlice sweep.parameters sweep.current_param_indices = true) :
    ∃ arr : NdArray R,
      generator sweep (fun s m v k => (Except.ok (f s m v k) : Except E R))
          fn pd kwargs = Except.ok arr
      ∧ arr.shape
          = collapsedShape sweep.parameters sweep.current_param_indices :=
  ⟨_, generator_ok_of_valid sweep f fn pd kwargs h,
    counts_slicedParams sweep.parameters sweep.current_param_indices⟩

/-- C1 witness: the 3x4 example space with axis 0 pinned at index 1. -/
theorem C1_shape_invariant_witness :
    validSlice exampleSpace [(0, 1)] = true ∧
    ∃ arr : NdArray Int,
      generator exampleSweepFixed
          (fun s m v k => (Except.ok ((0 : Int)) : Except Empty Int))
          none false ()
        = Except.ok arr
      ∧ arr.shape = collapsedShape exampleSpace [(0, 1)] :=
  ⟨by decide,
    C1_shape_invariant exampleSweepFixed (fun _ _ _ _ => (0 : Int))
      none false () (by decide)⟩

/-- C2: the executor enumerates the Cartesian product of the reduced ranges
in row-major order (last axis varies fastest), and the element of the
returned array at any valid MultiIndex `m` (at row-major flat position
`flatIndex`) is exactly the value the callback returned for `m`: no
transposition or reordering between invocation and storage. -/
theorem C2_row_major_correspondence {K E R : Type} (sweep : ParameterSweep)
    (f : ParameterSweep → List Nat → List Int → K → R) (fn : Option String)
    (pd : Bool) (kwargs : K) (reduced : Parameters) (m : List Nat)
    (hred : sweep.parameters.create_sliced sweep.current_param_indices false
      = Except.ok reduced)
    (hm : List.Forall₂ (fun i c => i < c) m reduced.counts) :
    ∃ arr : NdArray R,
      generator sweep (fun s mi v k => (Except.ok (f s mi v k) : Except E R))
          fn pd kwargs = Except.ok arr
      ∧ arr.shape = reduced.counts
      ∧ arr.data[flatIndex reduced.counts m]?
          = some (f sweep m (reduced.values m) kwargs) := by
  obtain ⟨hv, rfl⟩ := create_sliced_ok_inv hred
  refine ⟨_, generator_ok_of_valid sweep f fn pd kwargs hv, rfl, ?_⟩
  show ((itertools.product
      (slicedParams sweep.parameters sweep.current_param_indices).ranges).map
      fun mi =>
        f sweep mi
          ((slicedParams sweep.parameters
            sweep.current_param_indices).values mi) kwargs)[
      flatIndex (slicedParams sweep.parameters
        sweep.current_param_indices).counts m]? = _
  rw [List.getElem?_map]
  simp only [Parameters.ranges]
  rw [product_getElem? hm]
  rfl

/-- C2 witness: the free 3x4 example space at MultiIndex `[1, 2]`. -/
theorem C2_row_major_correspondence_witness :
    exampleSpace.create_sliced [] false
      = Except.ok (slicedParams exampleSpace []) ∧
    List.Forall₂ (fun i c => i < c) [1, 2]
      (slicedParams exampleSpace []).counts ∧
    ∃ arr : NdArray (List Int),
      generator exampleSweepFree
          (fun s mi v k => (Except.ok v : Except Empty (List Int)))
          none false ()
        = Except.ok arr
      ∧ arr.shape = (slicedParams exampleSpace []).counts
      ∧ arr.data[flatIndex (slicedParams exampleSpace []).counts [1, 2]]?
          = some ((slicedParams exampleSpace []).values [1, 2]) :=
  ⟨rfl, by decide,
    C2_row_major_correspondence exampleSweepFree (fun _ _ v _ => v)
      none false () (slicedParams exampleSpace []) [1, 2] rfl (by decide)⟩

/-- C3: for every grid point of the reduced space the callback is invoked
exactly once (each valid MultiIndex occurs exactly once in the enumerated
Cartesian product), and each invocation receives the sweep context as
first argument, the grid point's MultiIndex as `paramindex_tuple`, the
physical values at that point as `paramvals_tuple`, and the forwarded
keyword arguments unchanged. -/
theorem C3_callback_invocations {K E R : Type} (sweep : ParameterSweep)
    (f : ParameterSweep → List Nat → List Int → K → R) (fn : Option String)
    (pd : Bool) (kwargs : K) (reduced : Parameters) (m : List Nat)
    (hred : sweep.parameters.create_sliced sweep.current_param_indices false
      = Except.ok reduced)
    (hm : List.Forall₂ (fun i c => i < c) m reduced.counts) :
    (itertools.product reduced.ranges).count m = 1
    ∧ generator sweep (fun s mi v k => (Except.ok (f s mi v k) : Except E R))
        fn pd kwargs
      = Except.ok ⟨reduced.counts,
          (itertools.product reduced.ranges).map
            fun mi => f sweep mi (reduced.values mi) kwargs⟩ := by
  obtain ⟨hv, rfl⟩ := create_sliced_ok_inv hred
  constructor
  · apply count_eq_one_of_nodup_mem
    · apply nodup_product
      intro r hr
      simp only [Parameters.ranges, List.mem_map] at hr
      obtain ⟨c, _, rfl⟩ := hr
      exact List.nodup_range c
    · apply mem_product.mpr
      simpa only [Parameters.ranges] using forall₂_mem_range hm
  · exact generator_ok_of_valid sweep f fn pd kwargs hv

/-- C3 witness: the 3x4 space with axis 0 pinned at index 1, grid point
`[0, 3]`, with a callback recording its arguments. -/
theorem C3_callback_invocations_witness :
    exampleSpace.create_sliced [(0, 1)] false
      = Except.ok (slicedParams exampleSpace [(0, 1)]) ∧
    List.Forall₂ (fun i c => i < c) [0, 3]
      (slicedParams exampleSpace [(0, 1)]).counts ∧
    ((itertools.product (slicedParams exampleSpace [(0, 1)]).ranges).count
        [0, 3] = 1
      ∧ generator exampleSweepFixed
          (fun s mi v k =>
            (Except.ok (mi, v) : Except Empty (List Nat × List Int)))
          none false ()
        = Except.ok ⟨(slicedParams exampleSpace [(0, 1)]).counts,
            (itertools.product
              (slicedParams exampleSpace [(0, 1)]).ranges).map
              fun mi =>
                (mi, (slicedParams exampleSpace [(0, 1)]).values mi)⟩) :=
  ⟨rfl, by decide,
    C3_callback_invocations exampleSweepFixed (fun _ mi v _ => (mi, v))
      none false () (slicedParams exampleSpace [(0, 1)]) [0, 3] rfl
      (by decide)⟩

/-- C5: if any axis of the reduced space has count 0, the Cartesian
enumeration is empty — the callback (even one that always raises) is
invoked zero times — and the executor returns an array of the reduced
shape containing zero elements. -/
theorem C5_zero_size_short_circuit {K E R : Type} (sweep : ParameterSweep)
    (func : ParameterSweep → List Nat → List Int → K → Except E R)
    (fn : Option String) (pd : Bool) (kwargs : K) (reduced : Parameters)
    (hred : sweep.parameters.create_sliced sweep.current_param_indices false
      = Except.ok reduced)
    (h0 : 0 ∈ reduced.counts) :
    itertools.product reduced.ranges = []
    ∧ generator sweep func fn pd kwargs = Except.ok ⟨reduced.counts, []⟩ := by
  have hlen : (itertools.product reduced.ranges).length = 0 := by
    rw [length_product]
    simp only [Parameters.ranges]
    rw [map_length_map_range]
    exact List.prod_eq_zero h0
  have hnil : itertools.product reduced.ranges = [] :=
    List.eq_nil_of_length_eq_zero hlen
  refine ⟨hnil, ?_⟩
  rw [generator_eq_of_create_sliced_ok sweep func fn pd kwargs reduced hred]
  have hmap : mapExcept
      (fun m => (func sweep m (reduced.values m) kwargs).mapError
        SweepError.callback)
      ([] : List (List Nat)) = Except.ok [] := rfl
  rw [hnil, hmap, except_bind_ok]
  have hres : (asarray ([] : List R)).reshape reduced.counts
      = some ⟨reduced.counts, []⟩ := by
    unfold asarray NdArray.reshape
    simp [List.prod_eq_zero h0]
  rw [hres]

/-- C5 witness: a 2x0 space; the callback always raises, yet the sweep
succeeds with an empty 2x0 result because it is never invoked. -/
theorem C5_zero_size_short_circuit_witness :
    zeroAxisSweep.parameters.create_sliced [] false
      = Except.ok (slicedParams zeroAxisSweep.parameters []) ∧
    0 ∈ (slicedParams zeroAxisSweep.parameters []).counts ∧
    (itertools.product (slicedParams zeroAxisSweep.parameters []).ranges) = []
    ∧ generator zeroAxisSweep
        (fun _ _ _ _ => (Except.error () : Except Unit Nat)) none false ()
      = Except.ok ⟨(slicedParams zeroAxisSweep.parameters []).counts, []⟩ :=
  ⟨rfl, by decide,
    C5_zero_size_short_circuit zeroAxisSweep
      (fun _ _ _ _ => (Except.error () : Except Unit Nat)) none false ()
      (slicedParams zeroAxisSweep.parameters []) rfl (by decide)⟩

/-- C4 counterexample: in the spec's scenario (the 3x4 space with axis 0
fixed at index 1, `remove_fixed = False`) the callback invocations do NOT
all receive `paramindex_tuple[0] == 1`.  The reduced space's ranges are
the index ranges 0..count-1 (spec section 4.1), so the collapsed axis is
enumerated over the single index 0 and every invocation receives component
0 for axis 0.  The callback below records its own `paramindex_tuple`, so
the returned data lists exactly the received index tuples. -/
theorem C4_counterexample :
    generator exampleSweepFixed
        (fun _ mi _ _ => (Except.ok mi : Except Empty (List Nat)))
        none false ()
      = Except.ok ⟨[1, 4], [[0, 0], [0, 1], [0, 2], [0, 3]]⟩
    ∧ ¬ (∀ mi ∈ [[0, 0], [0, 1], [0, 2], [0, 3]],
          List.headD mi 0 = 1) := by
  constructor
  · rfl
  · decide

/-- C4 amended: in the spec's scenario the result is a 1x4 array and the
callback is invoked exactly 4 times; each invocation receives a
`paramindex_tuple` whose component for the pinned axis equals 0 (the only
index of the length-1 collapsed axis, per the 0..count-1 ranges), while
its `paramvals_tuple` component for that axis is the physical value at the
pinned index 1 (here 20). -/
theorem C4_amended_collapsed_axis_index :
    generator exampleSweepFixed
        (fun _ mi v _ =>
          (Except.ok (mi, v) : Except Empty (List Nat × List Int)))
        none false ()
      = Except.ok ⟨[1, 4],
          [([0, 0], [20, 1]), ([0, 1], [20, 2]),
           ([0, 2], [20, 3]), ([0, 3], [20, 4])]⟩ := by
  rfl

lemma np_asarray_atoms {xs : List PyObj} (h : xs.all PyObj.isAtom = true) :
    np_asarray xs = Except.ok (asarray xs) := by
  unfold np_asarray asarray
  rw [if_pos h]

lemma generatorPy_eq_of_create_sliced_ok {K : Type} (sweep : ParameterSweep)
    (func : ParameterSweep → List Nat → List Int → K → PyObj)
    (fn : Option String) (pd : Bool) (kwargs : K) (q : Parameters)
    (h : sweep.parameters.create_sliced sweep.current_param_indices false
      = Except.ok q) :
    generatorPy sweep func fn pd kwargs =
      ((np_asarray ((itertools.product q.ranges).map
          fun m => func sweep m (q.values m) kwargs)).mapError
        fun _ => PySweepError.valueError).bind
        fun arr1 =>
          match arr1.reshape q.counts with
          | some arr => Except.ok arr
          | none => Except.error PySweepError.valueError := by
  unfold generatorPy
  rw [h]
  rfl

/-- C6 counterexample: a callback returning a uniformly-shaped length-2
array at every grid point does not sweep successfully on the free 3x4
space: `np.asarray` stacks the twelve length-2 results into a `(12, 2)`
array of 24 elements, and reshaping it to the reduced counts `(3, 4)`
raises `ValueError`.  This refutes the claim that every callback
returning scalars, arrays, or domain objects succeeds. -/
theorem C6_counterexample :
    generatorPy exampleSweepFree (fun _ _ _ _ => PyObj.seq [1, 2])
        none false ()
      = Except.error PySweepError.valueError := by
  rfl

/-- C6 amended: the executor imposes no constraint on non-sequence return
values: for every callback returning only scalars and domain objects —
heterogeneous mixtures included, which numpy stores as a generic object
array — the sweep succeeds with the reduced shape and the returned
elements in row-major order.  Sequence(array)-valued returns are
excluded: as the counterexample shows, numpy's stacking makes the
reshape step raise for them. -/
theorem C6_amended_atomic_elements {K : Type} (sweep : ParameterSweep)
    (f : ParameterSweep → List Nat → List Int → K → PyObj)
    (fn : Option String) (pd : Bool) (kwargs : K)
    (hvalid : validSlice sweep.parameters sweep.current_param_indices = true)
    (hatoms : ∀ m ∈ itertools.product
        (slicedParams sweep.parameters sweep.current_param_indices).ranges,
      (f sweep m
        ((slicedParams sweep.parameters sweep.current_param_indices).values m)
        kwargs).isAtom = true) :
    generatorPy sweep f fn pd kwargs
      = Except.ok
          ⟨(slicedParams sweep.parameters sweep.current_param_indices).counts,
            (itertools.product
              (slicedParams sweep.parameters
                sweep.current_param_indices).ranges).map
              fun m =>
                f sweep m
                  ((slicedParams sweep.parameters
                    sweep.current_param_indices).values m) kwargs⟩ := by
  rw [generatorPy_eq_of_create_sliced_ok sweep f fn pd kwargs _
    (create_sliced_false_eq_ok hvalid)]
  have hall : ((itertools.product
      (slicedParams sweep.parameters sweep.current_param_indices).ranges).map
      fun m =>
        f sweep m
          ((slicedParams sweep.parameters
            sweep.current_param_indices).values m) kwargs).all
      PyObj.isAtom = true := by
    rw [List.all_eq_true]
    intro x hx
    obtain ⟨m, hm, rfl⟩ := List.mem_map.mp hx
    exact hatoms m hm
  have hstep : (np_asarray ((itertools.product
      (slicedParams sweep.parameters sweep.current_param_indices).ranges).map
      fun m =>
        f sweep m
          ((slicedParams sweep.parameters
            sweep.current_param_indices).values m) kwargs)).mapError
      (fun _ => PySweepError.valueError)
      = Except.ok (asarray ((itertools.product
          (slicedParams sweep.parameters
            sweep.current_param_indices).ranges).map
          fun m =>
            f sweep m
              ((slicedParams sweep.parameters
                sweep.current_param_indices).values m) kwargs)) := by
    rw [np_asarray_atoms hall]
    rfl
  rw [hstep, except_bind_ok, reshape_product_map]

/-- C6 witness: the free 3x4 space with a callback mixing numeric scalars
and non-numeric domain objects, the heterogeneous case numpy stores as a
generic object array. -/
theorem C6_amended_atomic_elements_witness :
    validSlice exampleSpace [] = true ∧
    (∀ m ∈ itertools.product (slicedParams exampleSpace []).ranges,
      (if List.headD m 0 = 0 then PyObj.scalar 7
        else PyObj.obj "qubit").isAtom = true) ∧
    generatorPy exampleSweepFree
        (fun _ mi _ _ =>
          if List.headD mi 0 = 0 then PyObj.scalar 7 else PyObj.obj "qubit")
        none false ()
      = Except.ok ⟨(slicedParams exampleSpace []).counts,
          (itertools.product (slicedParams exampleSpace []).ranges).map
            fun m =>
              if List.headD m 0 = 0 then PyObj.scalar 7
              else PyObj.obj "qubit"⟩ :=
  ⟨by decide, by decide,
    C6_amended_atomic_elements exampleSweepFree
      (fun _ mi _ _ =>
        if List.headD mi 0 = 0 then PyObj.scalar 7 else PyObj.obj "qubit")
      none false () (by decide) (by decide)⟩

/-- C7: if the callback raises at any grid point, the executor does not
catch, retry or swallow the exception: it propagates to the caller
(wrapped only by the injection into the executor's error type) and no
array — partial or otherwise — is returned. -/
theorem C7_exception_propagates {K E R : Type} (sweep : ParameterSweep)
    (func : ParameterSweep → List Nat → List Int → K → Except E R)
    (fn : Option String) (pd : Bool) (kwargs : K) (reduced : Parameters)
    (m : List Nat) (e : E)
    (hred : sweep.parameters.create_sliced sweep.current_param_indices false
      = Except.ok reduced)
    (hm : m ∈ itertools.product reduced.ranges)
    (he : func sweep m (reduced.values m) kwargs = Except.error e) :
    ∃ e' : E, generator sweep func fn pd kwargs
      = Except.error (SweepError.callback e') := by
  rw [generator_eq_of_create_sliced_ok sweep func fn pd kwargs reduced hred]
  obtain ⟨err, ⟨y, hy, hye⟩, hrun⟩ :=
    mapExcept_error_of_mem
      (f := fun mi => (func sweep mi (reduced.values mi) kwargs).mapError
        SweepError.callback)
      hm (by
        show (func sweep m (reduced.values m) kwargs).mapError
            SweepError.callback = Except.error (SweepError.callback e)
        rw [he]
        rfl)
  cases hfy : func sweep y (reduced.values y) kwargs with
  | error e0 =>
    rw [hfy] at hye
    simp only [Except.mapError] at hye
    injection hye with h1
    subst h1
    refine ⟨e0, ?_⟩
    rw [hrun]
    rfl
  | ok v =>
    rw [hfy] at hye
    simp only [Except.mapError] at hye
    exact Except.noConfusion hye

/-- C7 witness: the free 3x4 example space with a callback that raises. -/
theorem C7_exception_propagates_witness :
    exampleSpace.create_sliced [] false
      = Except.ok (slicedParams exampleSpace []) ∧
    [0, 0] ∈ itertools.product (slicedParams exampleSpace []).ranges ∧
    ∃ e' : String,
      generator exampleSweepFree
          (fun _ _ _ _ => (Except.error "diverged" : Except String Int))
          none false ()
        = Except.error (SweepError.callback e') :=
  ⟨rfl, by decide,
    C7_exception_propagates exampleSweepFree
      (fun _ _ _ _ => (Except.error "diverged" : Except String Int))
      none false () (slicedParams exampleSpace []) [0, 0] "diverged" rfl
      (by decide) rfl⟩

/-- C8: pinning an axis `i` to an index outside its valid range
(`j < 0` or `j >= count[i]`) makes the sweep fail with `OutOfRangeError`.
The failure is detected during grid reduction, before any iteration, and
the result is the same for every callback — the callback is invoked zero
times. -/
theorem C8_fixed_index_rejection {K E R : Type} (sweep : ParameterSweep)
    (func : ParameterSweep → List Nat → List Int → K → Except E R)
    (fn : Option String) (pd : Bool) (kwargs : K) (i : Nat) (j : Int)
    (hmem : (i, j) ∈ sweep.current_param_indices)
    (hax : i < sweep.parameters.numAxes)
    (hbad : j < 0 ∨ (sweep.parameters.counts.getD i 0 : Int) ≤ j) :
    generator sweep func fn pd kwargs
      = Except.error (SweepError.outOfRange OutOfRangeError.mk) := by
  have hv : ¬validSlice sweep.parameters sweep.current_param_indices = true := by
    intro htrue
    unfold validSlice at htrue
    rw [List.all_eq_true] at htrue
    have hthis := htrue (i, j) hmem
    simp only [Bool.and_eq_true, decide_eq_true_eq] at hthis
    rcases hbad with hneg | hbig
    · exact absurd hthis.1.2 (by omega)
    · exact absurd hthis.2 (by omega)
  have herr : sweep.parameters.create_sliced sweep.current_param_indices false
      = Except.error OutOfRangeError.mk := by
    rw [Parameters.create_sliced, if_neg hv]
  exact generator_eq_error_of_create_sliced_error sweep func fn pd kwargs _
    herr

/-- C8 witness: axis 0 of the 3x4 example space pinned at index 5 >= 3. -/
theorem C8_fixed_index_rejection_witness :
    ((0 : Nat), (5 : Int)) ∈ [((0 : Nat), (5 : Int))] ∧
    0 < exampleSpace.numAxes ∧
    ((5 : Int) < 0 ∨ (exampleSpace.counts.getD 0 0 : Int) ≤ 5) ∧
    generator (ParameterSweep.mk exampleSpace [(0, 5)])
        (fun _ _ _ _ => (Except.ok 0 : Except Unit Int)) none false ()
      = Except.error (SweepError.outOfRange OutOfRangeError.mk) :=
  ⟨by decide, by decide, Or.inr (by decide),
    C8_fixed_index_rejection (ParameterSweep.mk exampleSpace [(0, 5)])
      (fun _ _ _ _ => (Except.ok 0 : Except Unit Int)) none false () 0 5
      (by decide) (by decide) (Or.inr (by decide))⟩

/-- C9: the sweep is deterministic, and its output is independent of the
progress-reporting configuration: the derived label and the
`PROGRESSBAR_DISABLED` flag never change control flow or the returned
array. -/
theorem C9_progress_reporting_independent {K E R : Type}
    (sweep : ParameterSweep)
    (func : ParameterSweep → List Nat → List Int → K → Except E R)
    (kwargs : K) (fn1 fn2 : Option String) (pd1 pd2 : Bool) :
    generator sweep func fn1 pd1 kwargs
      = generator sweep func fn2 pd2 kwargs := rfl

lemma mutFold_log {K R : Type} (sweep : ParameterSweep)
    (func : ParameterSweep → List Nat → List Int → K → R × ParameterSweep)
    (kwargs : K) (q : Parameters) :
    (mutFold sweep func kwargs q).2.2 = itertools.product q.ranges := by
  unfold mutFold
  have hlog := foldl_log_invariant
    (fun (acc : List R × ParameterSweep × List (List Nat)) (m : List Nat) =>
      let out := func acc.2.1 m (q.values m) kwargs
      (acc.1 ++ [out.1], out.2, acc.2.2 ++ [m]))
    (fun acc => acc.2.2) (fun a b => rfl)
    (itertools.product q.ranges) ([], sweep, [])
  simpa using hlog

lemma mutFold_length {K R : Type} (sweep : ParameterSweep)
    (func : ParameterSweep → List Nat → List Int → K → R × ParameterSweep)
    (kwargs : K) (q : Parameters) :
    (mutFold sweep func kwargs q).1.length
      = (itertools.product q.ranges).length := by
  unfold mutFold
  have hlen := foldl_count_invariant
    (fun (acc : List R × ParameterSweep × List (List Nat)) (m : List Nat) =>
      let out := func acc.2.1 m (q.values m) kwargs
      (acc.1 ++ [out.1], out.2, acc.2.2 ++ [m]))
    (fun acc => acc.1.length) (fun a b => by simp)
    (itertools.product q.ranges) ([], sweep, [])
  simpa using hlen

/-- C10: the executor reads the sweep object's fixed-index state and
computes the reduced space exactly once, before any invocation: even for
a callback that mutates `sweep._current_param_indices` mid-sweep
(modelled by threading an updated sweep state through successive calls),
the recorded sequence of visited grid points is exactly the row-major
enumeration determined by the initial state, and the returned array has
the shape determined by the initial state. -/
theorem C10_fixed_state_read_once {K R : Type} (sweep : ParameterSweep)
    (func : ParameterSweep → List Nat → List Int → K → R × ParameterSweep)
    (kwargs : K)
    (h : validSlice sweep.parameters sweep.current_param_indices = true) :
    ∃ (arr : NdArray R) (sfinal : ParameterSweep),
      generatorMut sweep func kwargs
        = Except.ok (arr, sfinal,
            itertools.product
              (slicedParams sweep.parameters
                sweep.current_param_indices).ranges)
      ∧ arr.shape
          = (slicedParams sweep.parameters
              sweep.current_param_indices).counts := by
  rw [generatorMut_eq_of_create_sliced_ok sweep func kwargs _
    (create_sliced_false_eq_ok h)]
  rw [mutFold_log]
  have hres : (asarray
      (mutFold sweep func kwargs
        (slicedParams sweep.parameters sweep.current_param_indices)).1).reshape
      (slicedParams sweep.parameters sweep.current_param_indices).counts
      = some ⟨(slicedParams sweep.parameters
            sweep.current_param_indices).counts,
          (mutFold sweep func kwargs
            (slicedParams sweep.parameters sweep.current_param_indices)).1⟩ := by
    unfold asarray NdArray.reshape
    rw [if_pos]
    rw [mutFold_length, length_product]
    simp only [Parameters.ranges]
    rw [map_length_map_range]
  rw [hres]
  exact ⟨_, _, rfl, rfl⟩

/-- C10 witness: the 3x4 space with axis 0 pinned at index 1 and a
callback that prepends a new pinned axis to the sweep's fixed-index
state at every invocation. -/
theorem C10_fixed_state_read_once_witness :
    validSlice exampleSpace [(0, 1)] = true ∧
    ∃ (arr : NdArray (List Nat × List Int)) (sfinal : ParameterSweep),
      generatorMut exampleSweepFixed
          (fun s m v _ =>
            ((m, v), ParameterSweep.mk s.parameters
              ((0, 0) :: s.current_param_indices)))
          ()
        = Except.ok (arr, sfinal,
            itertools.product (slicedParams exampleSpace [(0, 1)]).ranges)
      ∧ arr.shape = (slicedParams exampleSpace [(0, 1)]).counts :=
  ⟨by decide,
    C10_fixed_state_read_once exampleSweepFixed
      (fun s m v _ =>
        ((m, v), ParameterSweep.mk s.parameters
          ((0, 0) :: s.current_param_indices)))
      () (by decide)⟩
